import Mathlib

/-!
Verification of the Corvid ephemeral test-instance lifecycle orchestrator:
a shallow embedding of `miscellaneous/create-new-test-instance.py` and
`miscellaneous/destroy-test-instance.py`, followed by theorems about the
embedded definitions.

Conventions of the embedding:
- Python strings are Lean `String`s; `str.splitlines(keepends=True)` is
  modelled for the `\n` line terminator (the only terminator occurring in
  the files these scripts manipulate).
- The YAML contact-mapping file (`group_vars/all/emails.yml`) is modelled
  at the level of its parsed `host_emails` mapping, as an association list.
- External processes are modelled by their argument vectors plus an
  exit-code oracle `List String → Int`; a command run with `check=True`
  whose exit code is non-zero raises (aborts the pipeline), mirroring
  `subprocess.CalledProcessError`.
-/

namespace Corvid

/-! ## String utilities mirroring the Python string methods used -/

/-- The whitespace characters stripped by Python `str.strip()` / `str.lstrip()`
(restricted to the ASCII whitespace set). -/
def pyWhitespace (c : Char) : Bool :=
  c = ' ' || c = '\t' || c = '\n' || c = '\r' || c = '\x0b' || c = '\x0c'

/-- Python `str.strip()`: remove leading and trailing whitespace. -/
def pyStrip (s : String) : String :=
  String.mk (((s.data.dropWhile pyWhitespace).reverse.dropWhile pyWhitespace).reverse)

/-- `len(line) - len(line.lstrip())`: the number of leading whitespace
characters of a line. -/
def countLeadingWS (line : String) : Nat :=
  (line.data.takeWhile pyWhitespace).length

/-- Helper for `splitlinesKeepends`: splits a character list after each
newline, accumulating the current (reversed) line in `acc`. -/
def splitlinesAux : List Char → List Char → List (List Char)
  | [], acc => if acc.isEmpty then [] else [acc.reverse]
  | c :: cs, acc =>
    if c = '\n' then (acc.reverse ++ ['\n']) :: splitlinesAux cs []
    else splitlinesAux cs (c :: acc)

/-- Python `str.splitlines(keepends=True)` for `\n`-terminated text. -/
def splitlinesKeepends (s : String) : List String :=
  (splitlinesAux s.data []).map String.mk

/-- Python `''.join(lines)`. -/
def joinLines (ls : List String) : String :=
  String.mk (ls.map String.data).flatten

/-- Python substring test `pat in s`. -/
def strContains (s pat : String) : Bool :=
  decide (pat.data <:+: s.data)

/-- Python `str.isalnum()`: non-empty and every character alphanumeric
(restricted to the ASCII range). -/
def pyIsAlnum (s : String) : Bool :=
  !s.data.isEmpty && s.data.all Char.isAlphanum

theorem data_mk (l : List Char) : (String.mk l).data = l := rfl

theorem mk_data (s : String) : String.mk s.data = s := rfl

theorem data_append (a b : String) : (a ++ b).data = a.data ++ b.data := rfl

theorem splitlinesAux_flatten (l : List Char) :
    ∀ acc, (splitlinesAux l acc).flatten = acc.reverse ++ l := by
  induction l with
  | nil =>
    intro acc
    cases acc with
    | nil => simp [splitlinesAux]
    | cons a t => simp [splitlinesAux]
  | cons c cs ih =>
    intro acc
    by_cases hc : c = '\n'
    · subst hc
      simp [splitlinesAux, ih]
    · simp [splitlinesAux, hc, ih]

/-- Splitting a string into kept-end lines and joining them back is the
identity: the textual insertion loop of `add_host_to_inventory` rewrites
the file contents unchanged when it inserts nothing. -/
theorem joinLines_splitlines (s : String) : joinLines (splitlinesKeepends s) = s := by
  unfold joinLines splitlinesKeepends
  rw [List.map_map]
  have hcomp : (String.data ∘ String.mk) = id := funext fun l => rfl
  rw [hcomp, List.map_id, splitlinesAux_flatten]
  simp

/-! ## `InventoryManager` of create-new-test-instance.py -/

/-- The line inserted below the `hosts:` key:
`' ' * indent + f'<full_hostname>:\n'` with `indent` two more than the
`hosts:` line's own leading whitespace. -/
def insertedHostLine (indent : Nat) (full_hostname : String) : String :=
  String.mk (List.replicate indent ' ' ++ full_hostname.data ++ [':', '\n'])

/-- The insertion loop of `InventoryManager.add_host_to_inventory`: walk the
lines, and directly after the first line whose stripped content is exactly
`hosts:` insert the new host line; all other lines are kept unchanged. -/
def insertAfterHosts (full_hostname : String) : List String → List String
  | [] => []
  | line :: rest =>
    if pyStrip line = "hosts:" then
      line :: insertedHostLine (countLeadingWS line + 2) full_hostname :: rest
    else
      line :: insertAfterHosts full_hostname rest

/-- `InventoryManager.add_host_to_inventory`: read the host-list file, splice
the hostname below the `hosts:` line, write the joined lines back.  Returns
the new file contents. -/
def add_host_to_inventory (inv full_hostname : String) : String :=
  joinLines (insertAfterHosts full_hostname (splitlinesKeepends inv))

/-- Whether some line's stripped content is exactly `hosts:` (the condition
under which the insertion loop actually inserts). -/
def hasHostsLine (ls : List String) : Bool :=
  ls.any fun l => decide (pyStrip l = "hosts:")

/-- `InventoryManager.add_email_for_host` on the parsed `host_emails`
mapping: insert `full_hostname ↦ email` if the key is absent; the Boolean
reports whether the file was rewritten (Python returns True/False). -/
def add_email_for_host (emails : List (String × String)) (full_hostname email : String) :
    List (String × String) × Bool :=
  if emails.any fun p => decide (p.1 = full_hostname) then
    (emails, false)
  else
    (emails ++ [(full_hostname, email)], true)

/-- The durable state `ensure_host` manipulates: the host-list file's raw
text and the parsed `host_emails` mapping of the contact file. -/
structure InvState where
  inventory : String
  host_emails : List (String × String)
deriving DecidableEq

/-- The first two statements of `InventoryManager.ensure_host`: read the
host-list file and insert the hostname only when `f'{full_hostname}:'` does
not already occur as a raw substring. -/
def ensure_inventory (inv full_hostname : String) : String :=
  if strContains inv (full_hostname ++ ":") then inv
  else add_host_to_inventory inv full_hostname

/-- Result of one `ensure_host` call: the new state, whether the contact
file was rewritten, and the git commands issued (always issued, in this
order, with `git commit` run with `check=False`). -/
structure EnsureResult where
  state : InvState
  emailsWritten : Bool
  gitCmds : List (List String)
deriving DecidableEq

/-- `InventoryManager.ensure_host`: conditional inventory insertion,
unconditional email upsert, then `git add`/`git commit`/`git push`
(the commit tolerating "nothing to commit" via `check=False`). -/
def ensure_host (st : InvState) (full_hostname email : String) : EnsureResult :=
  let inv := ensure_inventory st.inventory full_hostname
  let em := add_email_for_host st.host_emails full_hostname email
  { state := { inventory := inv, host_emails := em.1 }
    emailsWritten := em.2
    gitCmds :=
      [["git", "add", "inventory.yml", "group_vars/all/emails.yml"],
       ["git", "commit", "-m", "Add " ++ full_hostname ++ " to inventory and emails.yml"],
       ["git", "push", "origin", "simple"]] }

/-- Whether the `git commit` issued by `ensure_host` creates a commit:
given that the repository HEAD equals `st` when the call starts (true e.g.
directly after a previous `ensure_host` committed and pushed), git creates
a commit exactly when the staged files differ from HEAD. -/
def ensure_host_commit_created (st : InvState) (full_hostname email : String) : Bool :=
  decide ((ensure_host st full_hostname email).state ≠ st)

theorem insertAfterHosts_noop (full_hostname : String) (ls : List String)
    (hn : hasHostsLine ls = false) : insertAfterHosts full_hostname ls = ls := by
  induction ls with
  | nil => rfl
  | cons a t ih =>
    simp only [hasHostsLine, List.any_cons, Bool.or_eq_false_iff, decide_eq_false_iff_not] at hn
    simp only [insertAfterHosts, if_neg hn.1]
    rw [ih hn.2]

theorem add_host_noop (inv full_hostname : String)
    (hn : hasHostsLine (splitlinesKeepends inv) = false) :
    add_host_to_inventory inv full_hostname = inv := by
  unfold add_host_to_inventory
  rw [insertAfterHosts_noop _ _ hn, joinLines_splitlines]

theorem infix_insertAfterHosts (full_hostname : String) (ls : List String)
    (hl : hasHostsLine ls = true) :
    full_hostname.data ++ [':'] <:+:
      ((insertAfterHosts full_hostname ls).map String.data).flatten := by
  induction ls with
  | nil => simp [hasHostsLine] at hl
  | cons a t ih =>
    by_cases hp : pyStrip a = "hosts:"
    · simp only [insertAfterHosts, if_pos hp, List.map_cons, List.flatten_cons,
        insertedHostLine, data_mk]
      refine ⟨a.data ++ List.replicate (countLeadingWS a + 2) ' ',
        '\n' :: (t.map String.data).flatten, ?_⟩
      simp
    · have hl' : hasHostsLine t = true := by
        simp only [hasHostsLine, List.any_cons, Bool.or_eq_true] at hl
        rcases hl with h1 | h2
        · exact absurd (of_decide_eq_true h1) hp
        · exact h2
      simp only [insertAfterHosts, if_neg hp, List.map_cons, List.flatten_cons]
      exact (ih hl').trans (List.suffix_append a.data _).isInfix

theorem strContains_insert (inv full_hostname : String)
    (hl : hasHostsLine (splitlinesKeepends inv) = true) :
    strContains (add_host_to_inventory inv full_hostname) (full_hostname ++ ":") = true := by
  unfold strContains add_host_to_inventory joinLines
  rw [decide_eq_true_iff]
  have hd : (full_hostname ++ ":").data = full_hostname.data ++ [':'] := rfl
  rw [hd, data_mk]
  exact infix_insertAfterHosts full_hostname _ hl

theorem ensure_inventory_idem (inv full_hostname : String) :
    ensure_inventory (ensure_inventory inv full_hostname) full_hostname =
      ensure_inventory inv full_hostname := by
  by_cases hc : strContains inv (full_hostname ++ ":") = true
  · simp [ensure_inventory, hc]
  · by_cases hl : hasHostsLine (splitlinesKeepends inv) = true
    · have h2 := strContains_insert inv full_hostname hl
      simp [ensure_inventory, hc, h2]
    · have hnoop := add_host_noop inv full_hostname (Bool.not_eq_true _ ▸ hl)
      simp [ensure_inventory, hc, hnoop]

theorem add_email_mem (emails : List (String × String)) (full_hostname email : String) :
    ((add_email_for_host emails full_hostname email).1).any
      (fun p => decide (p.1 = full_hostname)) = true := by
  unfold add_email_for_host
  by_cases hx : emails.any (fun p => decide (p.1 = full_hostname)) = true
  · simp [hx]
  · simp [hx]

theorem add_email_of_mem (emails : List (String × String)) (full_hostname email : String)
    (hm : emails.any (fun p => decide (p.1 = full_hostname)) = true) :
    add_email_for_host emails full_hostname email = (emails, false) := by
  unfold add_email_for_host
  simp [hm]

theorem InvState_eq (a b : InvState) (h1 : a.inventory = b.inventory)
    (h2 : a.host_emails = b.host_emails) : a = b := by
  cases a; cases b; simp_all

theorem ensure_host_state_inventory (st : InvState) (full_hostname email : String) :
    (ensure_host st full_hostname email).state.inventory =
      ensure_inventory st.inventory full_hostname := rfl

theorem ensure_host_state_emails (st : InvState) (full_hostname email : String) :
    (ensure_host st full_hostname email).state.host_emails =
      (add_email_for_host st.host_emails full_hostname email).1 := rfl

theorem ensure_host_state_idem (st : InvState) (full_hostname email : String) :
    (ensure_host (ensure_host st full_hostname email).state full_hostname email).state =
      (ensure_host st full_hostname email).state := by
  apply InvState_eq
  · show ensure_inventory (ensure_inventory st.inventory full_hostname) full_hostname =
      ensure_inventory st.inventory full_hostname
    exact ensure_inventory_idem st.inventory full_hostname
  · show (add_email_for_host (add_email_for_host st.host_emails full_hostname email).1
        full_hostname email).1 = (add_email_for_host st.host_emails full_hostname email).1
    rw [add_email_of_mem _ _ _ (add_email_mem st.host_emails full_hostname email)]

/-- C1: `ensure_host` is idempotent: calling it a second time with the same
hostname and email leaves both the host-list file and the contact mapping
exactly as they were after the first call, and the second call's
`git commit` creates no commit (the tracked files are unchanged relative to
the HEAD produced by the first call). -/
theorem ensure_host_twice_idempotent (st : InvState) (full_hostname email : String) :
    (ensure_host (ensure_host st full_hostname email).state full_hostname email).state =
      (ensure_host st full_hostname email).state ∧
    ensure_host_commit_created (ensure_host st full_hostname email).state
      full_hostname email = false := by
  have hstate := ensure_host_state_idem st full_hostname email
  refine ⟨hstate, ?_⟩
  unfold ensure_host_commit_created
  exact decide_eq_false (not_not_intro hstate)

/-- C6: on a host-list file whose contents are exactly `"hosts:\n"` and an
empty contact mapping, `ensure_host "t1.example.com" "a@b.com"` produces
exactly `"hosts:\n  t1.example.com:\n"` (the hostname key indented two
spaces below `hosts:`), records the hostname-to-email association, and a
second run is byte-identical (same state, contact file not rewritten). -/
theorem ensure_host_hosts_only_scenario :
    (ensure_host ⟨"hosts:\n", []⟩ "t1.example.com" "a@b.com").state =
      ⟨"hosts:\n  t1.example.com:\n", [("t1.example.com", "a@b.com")]⟩ ∧
    (ensure_host ⟨"hosts:\n  t1.example.com:\n", [("t1.example.com", "a@b.com")]⟩
        "t1.example.com" "a@b.com").state =
      ⟨"hosts:\n  t1.example.com:\n", [("t1.example.com", "a@b.com")]⟩ ∧
    (ensure_host ⟨"hosts:\n  t1.example.com:\n", [("t1.example.com", "a@b.com")]⟩
        "t1.example.com" "a@b.com").emailsWritten = false := by
  refine ⟨?_, ?_, ?_⟩ <;> decide

/-- C9: if no line of the host-list file strips to exactly `hosts:`, the
insertion step rewrites the file with unchanged contents and raises no
error — the host is simply never added. -/
theorem add_host_no_hosts_line_noop (inv full_hostname : String)
    (hn : hasHostsLine (splitlinesKeepends inv) = false) :
    add_host_to_inventory inv full_hostname = inv :=
  add_host_noop inv full_hostname hn

theorem add_host_no_hosts_line_noop_witness :
    hasHostsLine (splitlinesKeepends "all:\n  children:\n") = false ∧
    add_host_to_inventory "all:\n  children:\n" "t1.example.com" = "all:\n  children:\n" :=
  ⟨by decide, add_host_no_hosts_line_noop "all:\n  children:\n" "t1.example.com" (by decide)⟩

/-- C10: `ensure_host`'s presence test is a raw substring match: whenever
the host-list text contains `full_hostname ++ ":"` anywhere (for instance
as the tail of a longer hostname key), no insertion is performed, while the
`git add`/`git commit`/`git push` sequence is still issued. -/
theorem ensure_host_substring_skip (st : InvState) (full_hostname email : String)
    (hc : strContains st.inventory (full_hostname ++ ":") = true) :
    (ensure_host st full_hostname email).state.inventory = st.inventory ∧
    (ensure_host st full_hostname email).gitCmds =
      [["git", "add", "inventory.yml", "group_vars/all/emails.yml"],
       ["git", "commit", "-m", "Add " ++ full_hostname ++ " to inventory and emails.yml"],
       ["git", "push", "origin", "simple"]] := by
  constructor
  · rw [ensure_host_state_inventory]
    simp [ensure_inventory, hc]
  · rfl

theorem ensure_host_substring_skip_witness :
    strContains "hosts:\n  web1.aopstest.com:\n" ("1.aopstest.com" ++ ":") = true ∧
    ((ensure_host ⟨"hosts:\n  web1.aopstest.com:\n", []⟩ "1.aopstest.com" "a@b.com").state.inventory =
        "hosts:\n  web1.aopstest.com:\n" ∧
      (ensure_host ⟨"hosts:\n  web1.aopstest.com:\n", []⟩ "1.aopstest.com" "a@b.com").gitCmds =
        [["git", "add", "inventory.yml", "group_vars/all/emails.yml"],
         ["git", "commit", "-m", "Add " ++ "1.aopstest.com" ++ " to inventory and emails.yml"],
         ["git", "push", "origin", "simple"]]) :=
  ⟨by decide,
   ensure_host_substring_skip ⟨"hosts:\n  web1.aopstest.com:\n", []⟩ "1.aopstest.com" "a@b.com"
     (by decide)⟩

/-! ## `InventoryManager` of destroy-test-instance.py

The host-list file is modelled by the key set of its `.all.hosts` mapping
(what the `yq has(...)` probe and `yq del(...)` mutation act on), the
contact file by its parsed `host_emails` association list.  `none` models a
missing file (the Python methods warn and return `False` then). -/

/-- `InventoryManager.remove_host_from_inventory`: if the file exists and
`yq '.all.hosts | has(h)'` reports true, delete the key in place and return
`True`; otherwise return `False`. -/
def remove_host_from_inventory (hosts : Option (List String)) (full_hostname : String) :
    Option (List String) × Bool :=
  match hosts with
  | none => (none, false)
  | some hs =>
    if full_hostname ∈ hs then
      (some (hs.filter fun x => decide (x ≠ full_hostname)), true)
    else
      (some hs, false)

/-- `InventoryManager.remove_email_for_host`: same shape over the
`host_emails` mapping of the contact file. -/
def remove_email_for_host (emails : Option (List (String × String))) (full_hostname : String) :
    Option (List (String × String)) × Bool :=
  match emails with
  | none => (none, false)
  | some em =>
    if em.any fun p => decide (p.1 = full_hostname) then
      (some (em.filter fun p => decide (p.1 ≠ full_hostname)), true)
    else
      (some em, false)

/-- Result of `InventoryManager.remove_host`: new file states, the two
removal flags, whether the commit-and-push block ran, the git commands it
issued, and the Python function's return value.  The Python method has no
`return` statement, so its value is always `None`, modelled as `ret = none`. -/
structure RemoveResult where
  hosts : Option (List String)
  host_emails : Option (List (String × String))
  invRemoved : Bool
  emailsRemoved : Bool
  commitMade : Bool
  gitCmds : List (List String)
  ret : Option Bool
deriving DecidableEq

/-- `InventoryManager.remove_host`: remove from both files, and commit/push
only if at least one removal occurred. -/
def remove_host (hosts : Option (List String)) (emails : Option (List (String × String)))
    (full_hostname : String) : RemoveResult :=
  let ri := remove_host_from_inventory hosts full_hostname
  let re := remove_email_for_host emails full_hostname
  let committed := ri.2 || re.2
  { hosts := ri.1
    host_emails := re.1
    invRemoved := ri.2
    emailsRemoved := re.2
    commitMade := committed
    gitCmds :=
      if committed then
        [["git", "add", "inventory.yml", "group_vars/all/emails.yml"],
         ["git", "commit", "-m",
          "Remove " ++ full_hostname ++ " from host_emails in emails.yml and inventory.yml"],
         ["git", "push", "origin", "simple"]]
      else []
    ret := none }

/-- Presence of the hostname among the host-list keys (`false` when the
file is missing). -/
def inventoryHas (hosts : Option (List String)) (full_hostname : String) : Bool :=
  match hosts with
  | none => false
  | some hs => decide (full_hostname ∈ hs)

/-- Presence of the hostname among the `host_emails` keys (`false` when the
file is missing). -/
def emailsHas (emails : Option (List (String × String))) (full_hostname : String) : Bool :=
  match emails with
  | none => false
  | some em => em.any fun p => decide (p.1 = full_hostname)

theorem remove_host_from_inventory_absent (hosts : Option (List String))
    (full_hostname : String) (h : inventoryHas hosts full_hostname = false) :
    remove_host_from_inventory hosts full_hostname = (hosts, false) := by
  cases hosts with
  | none => rfl
  | some hs =>
    simp only [inventoryHas, decide_eq_false_iff_not] at h
    simp [remove_host_from_inventory, h]

theorem remove_email_for_host_absent (emails : Option (List (String × String)))
    (full_hostname : String) (h : emailsHas emails full_hostname = false) :
    remove_email_for_host emails full_hostname = (emails, false) := by
  cases emails with
  | none => rfl
  | some em =>
    simp only [emailsHas] at h
    simp [remove_email_for_host, h]

/-- C3: when the hostname is absent from both the host-list file and the
contact-mapping file, `remove_host` issues no `git commit` and no
`git push`, and in general the commit-and-push block runs only when at
least one removal actually occurred. -/
theorem remove_host_absent_no_commit (hosts : Option (List String))
    (emails : Option (List (String × String))) (full_hostname : String)
    (h1 : inventoryHas hosts full_hostname = false)
    (h2 : emailsHas emails full_hostname = false) :
    ((remove_host hosts emails full_hostname).commitMade = false ∧
      (remove_host hosts emails full_hostname).gitCmds = []) ∧
    ∀ (hs : Option (List String)) (em : Option (List (String × String))) (h : String),
      (remove_host hs em h).commitMade = true →
      (remove_host hs em h).invRemoved = true ∨ (remove_host hs em h).emailsRemoved = true := by
  constructor
  · have e1 := remove_host_from_inventory_absent hosts full_hostname h1
    have e2 := remove_email_for_host_absent emails full_hostname h2
    constructor
    · show ((remove_host_from_inventory hosts full_hostname).2 ||
        (remove_email_for_host emails full_hostname).2) = false
      rw [e1, e2]
      rfl
    · show (if ((remove_host_from_inventory hosts full_hostname).2 ||
          (remove_email_for_host emails full_hostname).2) = true
          then _ else ([] : List (List String))) = []
      rw [e1, e2]
      rfl
  · intro hs em h hc
    have hor : ((remove_host_from_inventory hs h).2 ||
        (remove_email_for_host em h).2) = true := hc
    rcases Bool.or_eq_true_iff.mp hor with h' | h'
    · exact Or.inl h'
    · exact Or.inr h'

theorem remove_host_absent_no_commit_witness :
    (inventoryHas (some ["web1.aopstest.com"]) "t9.aopstest.com" = false ∧
      emailsHas (some [("web1.aopstest.com", "a@b.com")]) "t9.aopstest.com" = false) ∧
    (((remove_host (some ["web1.aopstest.com"]) (some [("web1.aopstest.com", "a@b.com")])
          "t9.aopstest.com").commitMade = false ∧
        (remove_host (some ["web1.aopstest.com"]) (some [("web1.aopstest.com", "a@b.com")])
          "t9.aopstest.com").gitCmds = []) ∧
      ∀ (hs : Option (List String)) (em : Option (List (String × String))) (h : String),
        (remove_host hs em h).commitMade = true →
        (remove_host hs em h).invRemoved = true ∨ (remove_host hs em h).emailsRemoved = true) :=
  ⟨⟨by decide, by decide⟩,
   remove_host_absent_no_commit (some ["web1.aopstest.com"])
     (some [("web1.aopstest.com", "a@b.com")]) "t9.aopstest.com" (by decide) (by decide)⟩

/-- C8 counterexample: on a state where only the contact-mapping entry
exists, the removal does occur and a commit is made, but `remove_host`
returns `None` (the Python method has no `return` statement) — it does not
return a value reporting the removal as true. -/
theorem remove_host_returns_none_cex :
    (remove_host (some ["web1.aopstest.com"]) (some [("t9.aopstest.com", "a@b.com")])
        "t9.aopstest.com").emailsRemoved = true ∧
    (remove_host (some ["web1.aopstest.com"]) (some [("t9.aopstest.com", "a@b.com")])
        "t9.aopstest.com").commitMade = true ∧
    (remove_host (some ["web1.aopstest.com"]) (some [("t9.aopstest.com", "a@b.com")])
        "t9.aopstest.com").ret = none := by
  refine ⟨?_, ?_, ?_⟩ <;> decide

/-- C8 (amended): `remove_host` computes whether any removal happened and
commits exactly when one did, but returns `None` rather than that value; in
particular, when only the contact-mapping entry exists, the contact entry
is removed, the host-list is untouched, a commit is made, and the computed
removal flag is true. -/
theorem remove_host_contact_only (hs : List String) (em : List (String × String))
    (full_hostname : String)
    (h1 : inventoryHas (some hs) full_hostname = false)
    (h2 : emailsHas (some em) full_hostname = true) :
    (remove_host (some hs) (some em) full_hostname).invRemoved = false ∧
    (remove_host (some hs) (some em) full_hostname).hosts = some hs ∧
    (remove_host (some hs) (some em) full_hostname).emailsRemoved = true ∧
    (remove_host (some hs) (some em) full_hostname).host_emails =
      some (em.filter fun p => decide (p.1 ≠ full_hostname)) ∧
    (remove_host (some hs) (some em) full_hostname).commitMade = true ∧
    (remove_host (some hs) (some em) full_hostname).ret = none := by
  have e1 := remove_host_from_inventory_absent (some hs) full_hostname h1
  have e2 : remove_email_for_host (some em) full_hostname =
      (some (em.filter fun p => decide (p.1 ≠ full_hostname)), true) := by
    simp only [emailsHas] at h2
    simp [remove_email_for_host, h2]
  refine ⟨?_, ?_, ?_, ?_, ?_, rfl⟩
  · show (remove_host_from_inventory (some hs) full_hostname).2 = false
    rw [e1]
  · show (remove_host_from_inventory (some hs) full_hostname).1 = some hs
    rw [e1]
  · show (remove_email_for_host (some em) full_hostname).2 = true
    rw [e2]
  · show (remove_email_for_host (some em) full_hostname).1 = _
    rw [e2]
  · show ((remove_host_from_inventory (some hs) full_hostname).2 ||
      (remove_email_for_host (some em) full_hostname).2) = true
    rw [e1, e2]
    rfl

theorem remove_host_contact_only_witness :
    (inventoryHas (some ["web1.aopstest.com"]) "t9.aopstest.com" = false ∧
      emailsHas (some [("t9.aopstest.com", "a@b.com")]) "t9.aopstest.com" = true) ∧
    ((remove_host (some ["web1.aopstest.com"]) (some [("t9.aopstest.com", "a@b.com")])
        "t9.aopstest.com").invRemoved = false ∧
      (remove_host (some ["web1.aopstest.com"]) (some [("t9.aopstest.com", "a@b.com")])
        "t9.aopstest.com").hosts = some ["web1.aopstest.com"] ∧
      (remove_host (some ["web1.aopstest.com"]) (some [("t9.aopstest.com", "a@b.com")])
        "t9.aopstest.com").emailsRemoved = true ∧
      (remove_host (some ["web1.aopstest.com"]) (some [("t9.aopstest.com", "a@b.com")])
          "t9.aopstest.com").host_emails =
        some ([("t9.aopstest.com", "a@b.com")].filter fun p => decide (p.1 ≠ "t9.aopstest.com")) ∧
      (remove_host (some ["web1.aopstest.com"]) (some [("t9.aopstest.com", "a@b.com")])
        "t9.aopstest.com").commitMade = true ∧
      (remove_host (some ["web1.aopstest.com"]) (some [("t9.aopstest.com", "a@b.com")])
        "t9.aopstest.com").ret = none) :=
  ⟨⟨by decide, by decide⟩,
   remove_host_contact_only ["web1.aopstest.com"] [("t9.aopstest.com", "a@b.com")]
     "t9.aopstest.com" (by decide) (by decide)⟩

/-! ## Hostname derivation and stack path (both pipelines) -/

/-- `full_hostname = f"{prefix}.aopstest.com"` in create-new-test-instance.py. -/
def full_hostname (pfx : String) : String := pfx ++ ".aopstest.com"

/-- `full_hostname = f"{prefix}.aopstest.com"` in destroy-test-instance.py. -/
def full_hostname' (pfx : String) : String := pfx ++ ".aopstest.com"

/-- `DEFAULT_STACK_ACCOUNT_PATH` in create-new-test-instance.py. -/
def DEFAULT_STACK_ACCOUNT_PATH : String := "stacks/accounts/aops_dev.487718497406"

/-- `DEFAULT_STACK_ACCOUNT_PATH` in destroy-test-instance.py. -/
def DEFAULT_STACK_ACCOUNT_PATH' : String := "stacks/accounts/aops_dev.487718497406"

/-- `Path` division: `a / b` appends a path component. -/
def pathJoin (a b : String) : String := a ++ "/" ++ b

/-- `stack_path = base_path / full_hostname` with
`base_path = terramate_cloud_path / DEFAULT_STACK_ACCOUNT_PATH`
(create-new-test-instance.py). -/
def stack_path (terramate_cloud_path pfx : String) : String :=
  pathJoin (pathJoin terramate_cloud_path DEFAULT_STACK_ACCOUNT_PATH) (full_hostname pfx)

/-- Same derivation in destroy-test-instance.py. -/
def stack_path' (terramate_cloud_path pfx : String) : String :=
  pathJoin (pathJoin terramate_cloud_path DEFAULT_STACK_ACCOUNT_PATH') (full_hostname' pfx)

/-- C4: in both pipelines the derived hostname is the prefix followed by
`"."` and the fixed domain, and the stack path is the base infra-account
path joined with that hostname; the create and destroy derivations are one
and the same function of the prefix. -/
theorem hostname_and_stack_path_pure (pfx root : String) :
    full_hostname pfx = pfx ++ "." ++ "aopstest.com" ∧
    full_hostname' pfx = full_hostname pfx ∧
    stack_path root pfx =
      pathJoin (pathJoin root DEFAULT_STACK_ACCOUNT_PATH) (full_hostname pfx) ∧
    stack_path' root pfx = stack_path root pfx := by
  refine ⟨?_, rfl, rfl, rfl⟩
  show pfx ++ ".aopstest.com" = pfx ++ "." ++ "aopstest.com"
  have hdom : ("." : String) ++ "aopstest.com" = ".aopstest.com" := by decide
  rw [String.append_assoc, hdom]

/-! ## Pipeline execution model

Each stage of `main` is the ordered list of external commands it issues
(`run(...)` / `subprocess.run(...)` calls), each tagged with its
failure-checking flag.  An exit-code oracle assigns every argument vector
an exit code; a checked command with non-zero exit raises
`CalledProcessError`, which `main`'s handler turns into `sys.exit(1)`. -/

/-- One external command: its argument vector and whether `run` was called
with failure-checking enabled (`check=True`, the default). -/
structure Cmd where
  argv : List String
  check : Bool
deriving DecidableEq

/-- Run the commands of one stage in order: stop at the first checked
command whose exit code is non-zero.  Returns the commands actually invoked
and whether the stage completed without a checked failure. -/
def runStageCmds (exitOf : List String → Int) : List Cmd → List Cmd × Bool
  | [] => ([], true)
  | c :: cs =>
    if c.check && decide (exitOf c.argv ≠ 0) then ([c], false)
    else
      let r := runStageCmds exitOf cs
      (c :: r.1, r.2)

/-- Run the stages in order: a stage with a checked failure aborts the run,
all later stages invoke nothing.  Returns the per-stage invocation traces
(one entry per stage) and overall success. -/
def runStages (exitOf : List String → Int) : List (List Cmd) → List (List Cmd) × Bool
  | [] => ([], true)
  | s :: rest =>
    let r := runStageCmds exitOf s
    if r.2 then
      let rs := runStages exitOf rest
      (r.1 :: rs.1, rs.2)
    else
      (r.1 :: rest.map (fun _ => []), false)

/-- `sys.exit(1)` on any propagated failure, exit 0 otherwise. -/
def pipelineExitCode (exitOf : List String → Int) (stages : List (List Cmd)) : Nat :=
  if (runStages exitOf stages).2 then 0 else 1

theorem getD_map_nil (l : List (List Cmd)) (m : Nat) :
    (l.map (fun _ => ([] : List Cmd))).getD m [] = [] := by
  induction l generalizing m with
  | nil => simp
  | cons a t ih =>
    cases m with
    | zero => rfl
    | succ k => exact ih k

theorem runStages_cons (exitOf : List String → Int) (s : List Cmd) (rest : List (List Cmd)) :
    runStages exitOf (s :: rest) =
      if (runStageCmds exitOf s).2 = true then
        ((runStageCmds exitOf s).1 :: (runStages exitOf rest).1, (runStages exitOf rest).2)
      else
        ((runStageCmds exitOf s).1 :: rest.map (fun _ => []), false) := rfl

/-- Abort propagation: if running stage `i` on its own hits a checked
failure, then in the full run every stage after `i` invokes no command and
the run as a whole fails. -/
theorem runStages_abort (exitOf : List String → Int) (ss : List (List Cmd)) :
    ∀ i j : Nat, i < j →
    (runStageCmds exitOf (ss.getD i [])).2 = false →
    (runStages exitOf ss).1.getD j [] = [] ∧ (runStages exitOf ss).2 = false := by
  induction ss with
  | nil =>
    intro i j _ hfail
    simp [runStageCmds] at hfail
  | cons s rest ih =>
    intro i j hij hfail
    cases i with
    | zero =>
      simp only [List.getD_cons_zero] at hfail
      have hrun : runStages exitOf (s :: rest) =
          ((runStageCmds exitOf s).1 :: rest.map (fun _ => []), false) := by
        rw [runStages_cons, if_neg (ne_true_of_eq_false hfail)]
      obtain ⟨m, rfl⟩ : ∃ m, j = m + 1 := ⟨j - 1, (Nat.succ_pred_eq_of_pos hij).symm⟩
      rw [hrun]
      exact ⟨getD_map_nil rest m, rfl⟩
    | succ k =>
      obtain ⟨m, rfl⟩ : ∃ m, j = m + 1 :=
        ⟨j - 1, (Nat.succ_pred_eq_of_pos (Nat.lt_of_le_of_lt (Nat.zero_le _) hij)).symm⟩
      have hkm : k < m := Nat.lt_of_succ_lt_succ hij
      simp only [List.getD_cons_succ] at hfail
      by_cases hs : (runStageCmds exitOf s).2 = true
      · have hrun : runStages exitOf (s :: rest) =
            ((runStageCmds exitOf s).1 :: (runStages exitOf rest).1,
              (runStages exitOf rest).2) := by
          rw [runStages_cons, if_pos hs]
        obtain ⟨htail, hok⟩ := ih k m hkm hfail
        rw [hrun]
        exact ⟨htail, hok⟩
      · have hs' : (runStageCmds exitOf s).2 = false := by
          revert hs
          cases (runStageCmds exitOf s).2 <;> simp
        have hrun : runStages exitOf (s :: rest) =
            ((runStageCmds exitOf s).1 :: rest.map (fun _ => []), false) := by
          rw [runStages_cons, if_neg (ne_true_of_eq_false hs')]
        rw [hrun]
        exact ⟨getD_map_nil rest m, rfl⟩

/-! ### The create pipeline (create-new-test-instance.py `main`) -/

/-- Resolved configuration of a create run: CLI prefix, the values the
environment lookups produce (all have defaults, none is required), and the
filesystem conditions the run branches on. -/
structure CreateCfg where
  pfx : String
  terramateRepo : String
  ansibleRepo : String
  branch : String
  terramatePath : String
  ansiblePath : String
  bootstrapKey : String
  ansibleControlKey : String
  vaultPwFile : String
  terramateCloned : Bool
  ansibleCloned : Bool
  stackExists : Bool
  ci : Bool
deriving DecidableEq

/-- Step 1: clone the Terramate repo and the Ansible repo (with branch
checkout) unless their paths already exist. -/
def createStage1 (c : CreateCfg) : List Cmd :=
  (if c.terramateCloned then []
   else [⟨["git", "clone", c.terramateRepo, c.terramatePath], true⟩]) ++
  (if c.ansibleCloned then []
   else [⟨["git", "clone", c.ansibleRepo, c.ansiblePath], true⟩,
         ⟨["git", "checkout", c.branch], true⟩])

/-- Step 2: `create_and_apply_terraform_stack` — terramate stack creation
when absent, stage/commit/push (commit unchecked), then terraform init and
apply (auto-approve only in CI mode). -/
def createStage2 (c : CreateCfg) : List Cmd :=
  (if c.stackExists then []
   else [⟨["terramate", "create",
           "stacks/accounts/aops_dev.487718497406/" ++ full_hostname c.pfx], true⟩]) ++
  [⟨["git", "add", "."], true⟩,
   ⟨["git", "commit", "-m", "Create or update test instance " ++ full_hostname c.pfx], false⟩,
   ⟨["git", "push", "origin", "main"], true⟩,
   ⟨["terraform", "init"], true⟩,
   ⟨if c.ci then ["terraform", "apply", "-auto-approve"] else ["terraform", "apply"], true⟩]

/-- Step 3: `add_to_ansible_inventory` — the git commands `ensure_host`
issues after its file edits. -/
def createStage3 (c : CreateCfg) : List Cmd :=
  [⟨["git", "add", c.ansiblePath ++ "/inventory.yml",
     c.ansiblePath ++ "/group_vars/all/emails.yml"], true⟩,
   ⟨["git", "commit", "-m", "Add " ++ full_hostname c.pfx ++ " to inventory and emails.yml"],
    false⟩,
   ⟨["git", "push", "origin", "simple"], true⟩]

/-- Step 4: `run_ansible` — the two playbook invocations. -/
def createStage4 (c : CreateCfg) : List Cmd :=
  [⟨["ansible-playbook", "initial_setup.yml", "--private-key", c.bootstrapKey,
     "--limit", full_hostname c.pfx, "--vault-password-file", c.vaultPwFile,
     "--ssh-common-args", "-o UserKnownHostsFile=/dev/null -o StrictHostKeyChecking=no"],
    true⟩,
   ⟨["ansible-playbook", "web_setup.yml", "--private-key", c.ansibleControlKey,
     "--limit", full_hostname c.pfx, "--vault-password-file", c.vaultPwFile,
     "--ssh-common-args", "-o UserKnownHostsFile=/dev/null -o StrictHostKeyChecking=no"],
    true⟩]

/-- Step 5: `import_db`. -/
def createStage5 (c : CreateCfg) : List Cmd :=
  [⟨["ssh-import-db.sh", full_hostname c.pfx], true⟩]

/-- The five numbered stages of the provisioning pipeline, in order. -/
def createStages (c : CreateCfg) : List (List Cmd) :=
  [createStage1 c, createStage2 c, createStage3 c, createStage4 c, createStage5 c]

/-- Exit status of a create run (1 exactly when the exception handler ran). -/
def createExitCode (c : CreateCfg) (exitOf : List String → Int) : Nat :=
  pipelineExitCode exitOf (createStages c)

/-- All external commands a create run invokes, in order. -/
def createCmds (c : CreateCfg) (exitOf : List String → Int) : List Cmd :=
  (runStages exitOf (createStages c)).1.flatten

/-- C2: if some stage of the provisioning pipeline hits a non-zero exit on
a command run with failure-checking enabled, then every later stage invokes
no command at all and the process exits with status 1.  (The witness
instantiates this with a failing `terraform apply -auto-approve` and shows
the configuration-management stage is never entered.) -/
theorem create_stage_failure_aborts (c : CreateCfg) (exitOf : List String → Int)
    (i j : Nat) (hij : i < j)
    (hfail : (runStageCmds exitOf ((createStages c).getD i [])).2 = false) :
    (runStages exitOf (createStages c)).1.getD j [] = [] ∧ createExitCode c exitOf = 1 := by
  obtain ⟨h1, h2⟩ := runStages_abort exitOf (createStages c) i j hij hfail
  refine ⟨h1, ?_⟩
  unfold createExitCode pipelineExitCode
  rw [h2]
  rfl

theorem create_stage_failure_aborts_witness :
    (runStages
        (fun argv => if argv = ["terraform", "apply", "-auto-approve"] then 1 else 0)
        (createStages ⟨"t1", "git@github.com:aops-ba/terramate-cloud.git",
          "git@github.com:aops-ba/ansible-cfg.git", "simple", "/tmp/tm", "/tmp/ans",
          "/root/.ssh/bootstrap_key", "/root/.ssh/ansible_control_key",
          "/root/.aops_ansible_vault_pw", false, false, false, true⟩)).1.getD 3 [] = [] ∧
    createExitCode ⟨"t1", "git@github.com:aops-ba/terramate-cloud.git",
        "git@github.com:aops-ba/ansible-cfg.git", "simple", "/tmp/tm", "/tmp/ans",
        "/root/.ssh/bootstrap_key", "/root/.ssh/ansible_control_key",
        "/root/.aops_ansible_vault_pw", false, false, false, true⟩
      (fun argv => if argv = ["terraform", "apply", "-auto-approve"] then 1 else 0) = 1 :=
  create_stage_failure_aborts _ _ 1 3 (by decide) (by decide)

/-! ### The destroy pipeline (destroy-test-instance.py `main`) -/

/-- The destroy prefix validation:
`prefix.replace('_', '').replace('-', '').isalnum()`. -/
def validPrefixDestroy (p : String) : Bool :=
  pyIsAlnum (String.mk (p.data.filter fun c => !(c = '_' || c = '-')))

/-- Python truthiness of `get_env(var, required=True)`'s value: an unset or
empty variable is falsy and triggers the required-variable error exit. -/
def envTruthy : Option String → Bool
  | none => false
  | some s => decide (s ≠ "")

/-- Resolved configuration of a destroy run: CLI prefix, the
`CLOUDFLARE_API_TOKEN` environment value, the remaining (defaulted)
environment lookups, and the filesystem/file-content conditions the run
branches on. -/
structure DestroyCfg where
  pfx : String
  token : Option String
  terramateRepo : String
  ansibleRepo : String
  branch : String
  terramatePath : String
  ansiblePath : String
  terramateCloned : Bool
  ansibleCloned : Bool
  stackExists : Bool
  invFileExists : Bool
  emailsFileExists : Bool
  hostInInventory : Bool
  hostInEmails : Bool
deriving DecidableEq

/-- Step 1: clone both repositories unless their paths already exist. -/
def destroyStage1 (c : DestroyCfg) : List Cmd :=
  (if c.terramateCloned then []
   else [⟨["git", "clone", c.terramateRepo, c.terramatePath], true⟩]) ++
  (if c.ansibleCloned then []
   else [⟨["git", "clone", c.ansibleRepo, c.ansiblePath], true⟩,
         ⟨["git", "checkout", c.branch], true⟩])

/-- Step 2: `destroy_terraform_stack` — skipped entirely when the stack
directory is absent; otherwise init, destroy, then commit/push the removal
(commit unchecked). -/
def destroyStage2 (c : DestroyCfg) : List Cmd :=
  if c.stackExists then
    [⟨["terraform", "init"], true⟩,
     ⟨["terraform", "destroy", "-auto-approve"], true⟩,
     ⟨["git", "add", "."], true⟩,
     ⟨["git", "commit", "-m",
       "Destroy test instance " ++ full_hostname' c.pfx ++ " (remove stack)"], false⟩,
     ⟨["git", "push", "origin", "main"], true⟩]
  else []

/-- Step 3: `remove_from_ansible_inventory` — the yq presence probes
(unchecked `subprocess.run`), the conditional yq deletions, and the
commit/push block when at least one removal occurred. -/
def destroyStage3 (c : DestroyCfg) : List Cmd :=
  (if c.invFileExists then
    [⟨["yq", "eval", ".all.hosts | has(\"" ++ full_hostname' c.pfx ++ "\")",
       c.ansiblePath ++ "/inventory.yml"], false⟩] ++
    (if c.hostInInventory then
      [⟨["yq", "eval", "del(.all.hosts.\"" ++ full_hostname' c.pfx ++ "\")", "-i",
         c.ansiblePath ++ "/inventory.yml"], true⟩]
     else [])
   else []) ++
  (if c.emailsFileExists then
    [⟨["yq", "eval", ".host_emails | has(\"" ++ full_hostname' c.pfx ++ "\")",
       c.ansiblePath ++ "/group_vars/all/emails.yml"], false⟩] ++
    (if c.hostInEmails then
      [⟨["yq", "eval", "del(.host_emails.\"" ++ full_hostname' c.pfx ++ "\")", "-i",
         c.ansiblePath ++ "/group_vars/all/emails.yml"], true⟩]
     else [])
   else []) ++
  (if (c.invFileExists && c.hostInInventory) || (c.emailsFileExists && c.hostInEmails) then
    [⟨["git", "add", c.ansiblePath ++ "/inventory.yml",
       c.ansiblePath ++ "/group_vars/all/emails.yml"], true⟩,
     ⟨["git", "commit", "-m", "Remove " ++ full_hostname' c.pfx ++
       " from host_emails in emails.yml and inventory.yml"], false⟩,
     ⟨["git", "push", "origin", "simple"], true⟩]
   else [])

/-- The three numbered stages of the decommissioning pipeline, in order. -/
def destroyStages (c : DestroyCfg) : List (List Cmd) :=
  [destroyStage1 c, destroyStage2 c, destroyStage3 c]

/-- Which fatal error a run reports. -/
inductive ErrKind
  | validation
  | configuration
  | external
deriving DecidableEq

/-- Observable outcome of a destroy invocation: exit status, every external
command invoked (in order), and the kind of error reported, if any. -/
structure Outcome where
  exitCode : Nat
  cmds : List Cmd
  err : Option ErrKind
deriving DecidableEq

/-- `main` of destroy-test-instance.py: prefix validation first, then the
required `CLOUDFLARE_API_TOKEN` check, and only then the staged pipeline. -/
def destroyOutcome (c : DestroyCfg) (exitOf : List String → Int) : Outcome :=
  if validPrefixDestroy c.pfx = false then
    ⟨1, [], some ErrKind.validation⟩
  else if envTruthy c.token = false then
    ⟨1, [], some ErrKind.configuration⟩
  else
    let r := runStages exitOf (destroyStages c)
    if r.2 then ⟨0, r.1.flatten, none⟩ else ⟨1, r.1.flatten, some ErrKind.external⟩

/-- C5: a destroy invocation with `CLOUDFLARE_API_TOKEN` unset or empty
exits with status 1 having invoked no external command (in particular no
repository clone), and — whenever the prefix passes validation, so that the
token check is the branch actually reporting — the reported error is the
configuration error. -/
theorem destroy_missing_token_exits_early (c : DestroyCfg) (exitOf : List String → Int)
    (htok : envTruthy c.token = false) :
    (destroyOutcome c exitOf).exitCode = 1 ∧ (destroyOutcome c exitOf).cmds = [] ∧
    (validPrefixDestroy c.pfx = true →
      (destroyOutcome c exitOf).err = some ErrKind.configuration) := by
  unfold destroyOutcome
  by_cases hv : validPrefixDestroy c.pfx = false
  · simp [hv]
  · have hv' : validPrefixDestroy c.pfx = true := by
      revert hv
      cases validPrefixDestroy c.pfx <;> simp
    simp [hv', htok]

theorem destroy_missing_token_exits_early_witness :
    envTruthy (none : Option String) = false ∧
    ((destroyOutcome ⟨"t1", none, "git@github.com:aops-ba/terramate-cloud.git",
        "git@github.com:aops-ba/ansible-cfg.git", "simple", "/tmp/tm", "/tmp/ans",
        false, false, false, false, false, false, false⟩ (fun _ => 0)).exitCode = 1 ∧
      (destroyOutcome ⟨"t1", none, "git@github.com:aops-ba/terramate-cloud.git",
        "git@github.com:aops-ba/ansible-cfg.git", "simple", "/tmp/tm", "/tmp/ans",
        false, false, false, false, false, false, false⟩ (fun _ => 0)).cmds = [] ∧
      (validPrefixDestroy "t1" = true →
        (destroyOutcome ⟨"t1", none, "git@github.com:aops-ba/terramate-cloud.git",
          "git@github.com:aops-ba/ansible-cfg.git", "simple", "/tmp/tm", "/tmp/ans",
          false, false, false, false, false, false, false⟩ (fun _ => 0)).err =
          some ErrKind.configuration)) :=
  ⟨rfl, destroy_missing_token_exits_early _ _ rfl⟩

/-- C7 counterexample: the create pipeline performs no prefix validation.
With the malformed (non-alphanumeric) prefix `"t1!!"` and every external
command succeeding, the create run invokes external commands (the clones
run) and exits 0 — not the claimed exit 1 with no external command. -/
theorem create_no_prefix_validation_cex :
    pyIsAlnum "t1!!" = false ∧
    createExitCode ⟨"t1!!", "git@github.com:aops-ba/terramate-cloud.git",
      "git@github.com:aops-ba/ansible-cfg.git", "simple", "/tmp/tm", "/tmp/ans",
      "/root/.ssh/bootstrap_key", "/root/.ssh/ansible_control_key",
      "/root/.aops_ansible_vault_pw", false, false, false, true⟩ (fun _ => 0) = 0 ∧
    (createCmds ⟨"t1!!", "git@github.com:aops-ba/terramate-cloud.git",
        "git@github.com:aops-ba/ansible-cfg.git", "simple", "/tmp/tm", "/tmp/ans",
        "/root/.ssh/bootstrap_key", "/root/.ssh/ansible_control_key",
        "/root/.aops_ansible_vault_pw", false, false, false, true⟩ (fun _ => 0)).head? =
      some ⟨["git", "clone", "git@github.com:aops-ba/terramate-cloud.git", "/tmp/tm"], true⟩ := by
  refine ⟨by decide, by decide, by decide⟩

/-- C7 (amended): only the destroy pipeline validates the positional prefix
(alphanumeric plus underscores and dashes), before any external call: a
malformed prefix makes destroy exit with status 1 reporting a validation
error, with no external command invoked. -/
theorem destroy_prefix_validated (c : DestroyCfg) (exitOf : List String → Int)
    (hbad : validPrefixDestroy c.pfx = false) :
    destroyOutcome c exitOf = ⟨1, [], some ErrKind.validation⟩ := by
  unfold destroyOutcome
  simp [hbad]

theorem destroy_prefix_validated_witness :
    validPrefixDestroy "t1!!" = false ∧
    destroyOutcome ⟨"t1!!", some "tok", "git@github.com:aops-ba/terramate-cloud.git",
        "git@github.com:aops-ba/ansible-cfg.git", "simple", "/tmp/tm", "/tmp/ans",
        false, false, false, false, false, false, false⟩ (fun _ => 0) =
      ⟨1, [], some ErrKind.validation⟩ :=
  ⟨by decide, destroy_prefix_validated _ _ (by decide)⟩

end Corvid
